import Mathlib

/-!
Shallow embedding of the central fleet-planner server (server.py): the road
graph, the space-time reservation table, the space-time A* planner, the
path-to-command translator, and the robot/job state machine with its
operations (register, submit, allocator tick, poll, update-location,
report-execution, reset).

Modelling conventions:
* Python dicts that preserve insertion order are modelled as association
  lists; updating an existing key replaces the value in place, a new key is
  appended at the end (matching CPython dict semantics).
* The float costs of the A* search (step cost 1, wait penalty 1.1) are
  modelled exactly: every cost and every search time is a multiple of 0.1,
  so costs and times are carried as natural numbers of tenths (step cost
  10, wait penalty 11, times scaled by 10).  This is order-isomorphic to
  the exact rational semantics.  The search heap is modelled as a list
  kept sorted by the full lexicographic tuple order that Python uses to
  compare heap entries (f, g, node, path); entries comparing equal are
  literally identical, so the pop order coincides with heapq's.
* Python's stable list.sort with a key function is modelled by Mathlib's
  insertionSort with the non-strict comparison induced by the key (a stable
  sort of a list with respect to a total preorder is unique).
* The non-terminating while-loop of the A* search is given an explicit fuel
  parameter; all soundness statements hold for every fuel value, and the
  server operations use a fixed large fuel.
* Wall-clock reads int(time.time()) become explicit Nat parameters; the
  state carries a ghost field now recording the last observed time.
  Robot records carry two ghost (history) fields reservedPath/reservedT0
  recording the trajectory and start time last passed by the server to
  reserve_path_trajectory for that robot; they influence no behaviour.
-/

abbrev Node := String
abbrev RId := String
abbrev JId := String

/-- Association-list lookup, first binding wins (Python dict lookup). -/
def alookup {κ α : Type} [BEq κ] (l : List (κ × α)) (k : κ) : Option α :=
  (l.find? (fun p => p.1 == k)).map (·.2)

/-- Association-list update: replace the first binding of the key in place,
or append a fresh binding at the end (Python dict assignment). -/
def aupdate {κ α : Type} [BEq κ] (l : List (κ × α)) (k : κ) (v : α) : List (κ × α) :=
  match l with
  | [] => [(k, v)]
  | (k', v') :: t => if k' == k then (k, v) :: t else (k', v') :: aupdate t k v

/-- The static road graph of server.py: node, then its direction-labelled
out-edges in source order. -/
def GRAPH : List (Node × List (String × Node)) :=
  [ ("11", [("s", "21")]),
    ("12", [("s", "22")]),
    ("13", [("s", "23")]),
    ("15", [("s", "25")]),
    ("21", [("n", "11"), ("e", "22"), ("s", "31")]),
    ("22", [("n", "12"), ("s", "32"), ("w", "21"), ("e", "23")]),
    ("23", [("n", "13"), ("s", "33"), ("w", "22")]),
    ("24", [("e", "25"), ("s", "34")]),
    ("25", [("n", "15"), ("s", "35"), ("e", "26"), ("w", "24")]),
    ("26", [("w", "25")]),
    ("31", [("n", "21"), ("e", "32")]),
    ("32", [("n", "22"), ("e", "33"), ("w", "31")]),
    ("33", [("n", "23"), ("s", "43"), ("e", "34"), ("w", "32")]),
    ("34", [("n", "24"), ("s", "44"), ("e", "35"), ("w", "33")]),
    ("35", [("w", "34"), ("n", "25"), ("e", "36"), ("s", "45")]),
    ("36", [("w", "35"), ("s", "46")]),
    ("42", [("s", "52")]),
    ("43", [("n", "33"), ("s", "53"), ("e", "44")]),
    ("44", [("w", "43"), ("n", "34"), ("e", "45")]),
    ("45", [("w", "44"), ("n", "35"), ("s", "65"), ("e", "46")]),
    ("46", [("w", "45"), ("n", "36")]),
    ("51", [("e", "52")]),
    ("52", [("s", "62"), ("e", "53"), ("n", "42"), ("w", "51")]),
    ("53", [("w", "52"), ("n", "43"), ("s", "63")]),
    ("56", [("s", "66")]),
    ("62", [("n", "52")]),
    ("63", [("s", "73"), ("e", "64"), ("n", "53")]),
    ("64", [("w", "63"), ("e", "65"), ("s", "84")]),
    ("65", [("n", "45"), ("s", "75"), ("e", "66"), ("w", "64")]),
    ("66", [("w", "65"), ("n", "56"), ("s", "76")]),
    ("71", [("s", "81"), ("e", "72")]),
    ("72", [("s", "82"), ("e", "73"), ("w", "71")]),
    ("73", [("w", "72"), ("s", "83"), ("n", "63")]),
    ("75", [("n", "65"), ("s", "85"), ("e", "76")]),
    ("76", [("w", "75"), ("n", "66"), ("s", "86")]),
    ("81", [("n", "71")]),
    ("82", [("n", "72")]),
    ("83", [("n", "73")]),
    ("84", [("n", "64")]),
    ("85", [("n", "75")]),
    ("86", [("n", "76")]) ]

/-- Parking cells (PARKING_NODES in server.py). -/
def PARKING_NODES : List Node :=
  ["81", "82", "83", "84", "85", "86", "11", "12", "13", "15", "26", "31", "46", "51", "56"]

/-- MAX_SEARCH_DEPTH in server.py. -/
def MAX_SEARCH_DEPTH : Nat := 60

/-- build_coords: coords[n] = (int(n[1]), int(n[0])); any failure yields (0,0). -/
def parseCoord (n : Node) : Nat × Nat :=
  match n.toList with
  | [a, b] => if a.isDigit && b.isDigit then (b.toNat - '0'.toNat, a.toNat - '0'.toNat) else (0, 0)
  | _ => (0, 0)

/-- NODE_COORDS.get(n, (0,0)): coordinates for graph nodes, (0,0) otherwise. -/
def nodeCoords (n : Node) : Nat × Nat :=
  if (alookup GRAPH n).isSome then parseCoord n else (0, 0)

/-- get_manhattan_dist of server.py. -/
def getManhattanDist (a b : Node) : Nat :=
  let ca := nodeCoords a
  let cb := nodeCoords b
  (((ca.1 : Int) - cb.1).natAbs) + (((ca.2 : Int) - cb.2).natAbs)

structure Robot where
  status : String
  node : Node
  dir : String
  color : Nat
  current_path : List Node
  current_job : Option JId
  last_seen : Nat
  reservedPath : List Node
  reservedT0 : Nat
  deriving Repr, DecidableEq, Inhabited

structure TraceEntry where
  step_index : Int
  node : Node
  dir : String
  ts : Nat
  deriving Repr, DecidableEq

structure Report where
  robot : RId
  nodes_with_dir : Option (List (Node × String))
  ts : Nat
  deriving Repr, DecidableEq

structure Job where
  pickup : Node
  drop : Node
  status : String
  assigned_robot : Option RId
  path : List Node
  plan : List (Node × Char)
  plan_str : String
  progress_index : Option Int
  progress_trace : List TraceEntry
  reports : List Report
  submitted_ts : Nat
  deriving Repr, DecidableEq, Inhabited

/-- The reservation table: (node, discrete time) to owning robot id. -/
abbrev ResTable := List ((Node × Nat) × RId)

structure ServerState where
  now : Nat
  robots : List (RId × Robot)
  jobs : List (JId × Job)
  job_queue : List JId
  reservations : ResTable
  deriving Repr, DecidableEq

/-- is_safe of server.py.  The time argument is in tenths of a step because
the search propagates the float cost accumulator into the lookup time; a
reservation entry (with integer time) matches only if the scaled times are
equal.  This is exact rational semantics for the Python float/int dict-key
comparison; the two can differ only once a search has accumulated ten or
more wait penalties (where 0.1-based float sums stop being exact), a
region none of the statements below depends on. -/
def isSafe (resv : ResTable) (robotsL : List (RId × Robot)) (node : Node) (t : Nat)
    (rid : RId) : Bool :=
  let owner := (resv.find? (fun e => e.1.1 == node && 10 * e.1.2 == t)).map (·.2)
  let blocked := robotsL.any (fun p => p.1 != rid && p.2.status == "idle" && p.2.node == node)
  match owner with
  | some o => if o != rid then false else !blocked
  | none => !blocked

/-- One heap entry of the A* search: (f, g, node, path) as in server.py,
with f and g in tenths. -/
abbrev AStarEntry := Nat × Nat × Node × List Node

/-- Lexicographic comparison of path lists (Python list comparison). -/
def listStrLt : List String → List String → Bool
  | [], [] => false
  | [], _ :: _ => true
  | _ :: _, [] => false
  | a :: as_, b :: bs => decide (a < b) || (a == b && listStrLt as_ bs)

/-- Python tuple comparison on heap entries. -/
def entryLt (x y : AStarEntry) : Bool :=
  x.1 < y.1 ||
    (x.1 == y.1 &&
      (x.2.1 < y.2.1 ||
        (x.2.1 == y.2.1 &&
          (decide (x.2.2.1 < y.2.2.1) ||
            (x.2.2.1 == y.2.2.1 && listStrLt x.2.2.2 y.2.2.2)))))

/-- heapq push, modelled on a list kept sorted by entryLt. -/
def heapPush (e : AStarEntry) : List AStarEntry → List AStarEntry
  | [] => [e]
  | x :: xs => if entryLt e x then e :: x :: xs else x :: heapPush e xs

/-- The body of the for-loop over neighbors inside space_time_a_star: skip
a successor already visited at that time, otherwise if it is safe push it
with cost g+1 (plus the 1.1 wait penalty when it equals the current cell)
and record it visited.  Costs and times are in tenths. -/
def astarExpand (resv : ResTable) (robotsL : List (RId × Robot)) (endN : Node) (rid : RId)
    (g : Nat) (curr : Node) (path : List Node) (currentTime : Nat)
    (acc : List AStarEntry × List (Node × Nat)) (nb : Node) :
    List AStarEntry × List (Node × Nat) :=
  let nt := currentTime + 10
  if acc.2.any (fun v => v.1 == nb && v.2 == nt) then acc
  else if isSafe resv robotsL nb nt rid then
    let ng := g + 10
    let ng := if nb == curr then ng + 11 else ng
    let h := getManhattanDist nb endN
    (heapPush (ng + 10 * h, ng, nb, path ++ [nb]) acc.1, (nb, nt) :: acc.2)
  else acc

/-- The body of the while-loop of space_time_a_star, with explicit fuel.
Costs and times are in tenths: step cost 1 becomes 10, the wait penalty
1.1 becomes 11, and current_time = t0 + g becomes 10 * t0 + g (the source
computes current_time right after the pop; it is only used for successor
times, so it is inlined into the expansion branch here).  One deliberate
totalization: on a popped node outside the graph the source's graph[curr]
raises KeyError (killing the calling thread), while this model treats the
node as having no out-edges; every theorem and witness below stays within
searches whose popped nodes are graph keys, where the two agree. -/
def astarLoop (resv : ResTable) (robotsL : List (RId × Robot))
    (graph : List (Node × List (String × Node))) (endN : Node) (t0 : Nat) (rid : RId)
    (maxTime : Nat) :
    Nat → List AStarEntry → List (Node × Nat) → Option (List Node)
  | 0, _, _ => none
  | _ + 1, [], _ => none
  | fuel + 1, (_, g, curr, path) :: rest, visited =>
    if curr == endN then some path
    else if 10 * maxTime ≤ g then
      astarLoop resv robotsL graph endN t0 rid maxTime fuel rest visited
    else
      let neighbors := ((alookup graph curr).getD []).map (·.2) ++ [curr]
      let step := neighbors.foldl
        (astarExpand resv robotsL endN rid g curr path (10 * t0 + g)) (rest, visited)
      astarLoop resv robotsL graph endN t0 rid maxTime fuel step.1 step.2

/-- space_time_a_star of server.py (fuel-indexed). -/
def spaceTimeAStar (resv : ResTable) (robotsL : List (RId × Robot))
    (graph : List (Node × List (String × Node))) (start endN : Node) (t0 : Nat)
    (rid : RId) (maxTime : Nat) (fuel : Nat) : Option (List Node) :=
  astarLoop resv robotsL graph endN t0 rid maxTime fuel [(0, 0, start, [start])] []

/-- Fuel used by the server operations; large enough for every search the
concrete scenarios in this file perform. -/
def FUEL : Nat := 1000

/-- Remove every reservation owned by a robot (the deletion loop of
reserve_path_trajectory, update_location and report_execution). -/
def releaseOwner (resv : ResTable) (rid : RId) : ResTable :=
  resv.filter (fun e => e.2 != rid)

/-- The enumerate-and-write loop of reserve_path_trajectory. -/
def reserveFrom (rid : RId) : ResTable → List Node → Nat → ResTable
  | r, [], _ => r
  | r, n :: rest, t => reserveFrom rid (aupdate r (n, t) rid) rest (t + 1)

/-- reserve_path_trajectory of server.py. -/
def reservePathTrajectory (resv : ResTable) (path : List Node) (t0 : Nat) (rid : RId) :
    ResTable :=
  reserveFrom rid (releaseOwner resv rid) path t0

/-- Lexicographic order on (distance, node name), the order Python uses to
sort the candidate pairs of find_nearest_parking. -/
def parkLe (a b : Nat × Node) : Prop :=
  a.1 < b.1 ∨ (a.1 = b.1 ∧ a.2 ≤ b.2)

instance : DecidableRel parkLe := fun a b => by
  unfold parkLe; infer_instance

/-- find_nearest_parking of server.py. -/
def findNearestParking (robotsL : List (RId × Robot)) (node : Node) : Option Node :=
  let candidates := (PARKING_NODES.filter
      (fun p => !(robotsL.any (fun r => r.2.node == p && r.2.status == "idle")))).map
    (fun p => (getManhattanDist node p, p))
  match List.insertionSort parkLe candidates with
  | [] => none
  | c :: _ => some c.2

/-- Python str.lower(), for the ASCII strings this server handles
(String.mk keeps the model kernel-computable). -/
def strLower (x : String) : String := String.mk (x.data.map Char.toLower)

/-- CLOCKWISE of server.py. -/
def CLOCKWISE : List (String × String) := [("n", "e"), ("e", "s"), ("s", "w"), ("w", "n")]

/-- CCW of server.py (inverse pairs of CLOCKWISE). -/
def CCW : List (String × String) := CLOCKWISE.map (fun p => (p.2, p.1))

/-- OPP of server.py. -/
def OPP : List (String × String) := [("n", "s"), ("s", "n"), ("e", "w"), ("w", "e")]

/-- direction_between of server.py: first out-edge of a that leads to b. -/
def directionBetween (a b : Node) : Option String :=
  (((alookup GRAPH a).getD []).find? (fun p => p.2 == b)).map (·.1)

/-- instruction_from_dirs of server.py.  (Python raises KeyError on a heading
outside n/e/s/w; there a missing key falls through to the final default,
which is only reachable with such malformed input.) -/
def instructionFromDirs (cur target : String) : Char :=
  if cur == target then 'S'
  else if alookup CLOCKWISE cur == some target then 'R'
  else if alookup CCW cur == some target then 'L'
  else if alookup OPP cur == some target then 'U'
  else 'S'

/-- The loop of path_to_instr_list, over the consecutive pairs of the path,
carrying the running heading. -/
def pathToInstrListAux (cur : String) : List Node → List Char × String
  | a :: b :: rest =>
    match directionBetween a b with
    | none =>
      let cur' := (alookup OPP cur).getD cur
      let r := pathToInstrListAux cur' (b :: rest)
      ('U' :: r.1, r.2)
    | some target =>
      let cmd := instructionFromDirs cur target
      let cur' :=
        if cmd == 'R' then (alookup CLOCKWISE cur).getD cur
        else if cmd == 'L' then (alookup CCW cur).getD cur
        else if cmd == 'U' then (alookup OPP cur).getD cur
        else cur
      let r := pathToInstrListAux cur' (b :: rest)
      (cmd :: r.1, r.2)
  | _ => ([], cur)

/-- path_to_instr_list of server.py: per-edge motion commands and the final
heading. -/
def pathToInstrList (path : List Node) (initialDir : String) : List Char × String :=
  pathToInstrListAux initialDir path

/-- build_plan_array of server.py.  Its loop pairs path[i] with
instr_list[i] for i < len(path)-1; callers always pass an instruction list
of length len(path)-1, which the zip below realises. -/
def buildPlanArray (path : List Node) (instrList : List Char) : List (Node × Char) :=
  path.dropLast.zip instrList ++ (if path.length > 0 then [(path.getLastD "", 'D')] else [])

/-- plan_to_str of server.py. -/
def planToStr (plan : List (Node × Char)) : String :=
  String.intercalate " " (plan.map (fun p => p.1 ++ " " ++ p.2.toString))

/-- create_system_job of server.py (the fresh uuid is supplied by the
caller; dict keys that the Python code leaves absent are empty here). -/
def createSystemJob (pickup drop : Node) (rid : Option RId) (tNow : Nat) : Job :=
  { pickup := pickup, drop := drop, submitted_ts := tNow,
    status := if rid.isSome then "assigned" else "queued",
    assigned_robot := rid, progress_index := none,
    path := [], plan := [], plan_str := "", progress_trace := [], reports := [] }

/-- The register_robot operation (the color argument plays the role of
random_color(), the rid that of the optionally generated uuid). -/
def registerRobot (s : ServerState) (rid node dir : String) (color : Nat) (tNow : Nat) :
    ServerState :=
  let color := match alookup s.robots rid with
    | some old => old.color
    | none => color
  let rob : Robot :=
    { status := "idle", node := node, last_seen := tNow, color := color,
      current_path := [], dir := strLower dir, current_job := none,
      reservedPath := [], reservedT0 := 0 }
  { s with robots := aupdate s.robots rid rob, now := tNow }

/-- The submit_job operation (fresh job id supplied by the caller). -/
def submitJob (s : ServerState) (jid pickup drop : String) (tNow : Nat) : ServerState :=
  let job : Job :=
    { pickup := pickup, drop := drop, submitted_ts := tNow, status := "queued",
      assigned_robot := none, path := [], plan := [], plan_str := "",
      progress_index := none, progress_trace := [], reports := [] }
  { s with job_queue := s.job_queue ++ [jid], jobs := aupdate s.jobs jid job, now := tNow }

/-- The poll_task operation: refreshes last_seen (the response itself is a
pure read). -/
def pollTask (s : ServerState) (rid : RId) (tNow : Nat) : ServerState :=
  match alookup s.robots rid with
  | none => s
  | some rob =>
    { s with robots := aupdate s.robots rid { rob with last_seen := tNow }, now := tNow }

/-- Robot selection of allocator_loop: the idle robots in robot-table order,
stably sorted by Manhattan distance to the pickup; the first is chosen. -/
def allocPickRobot (robotsL : List (RId × Robot)) (pickup : Node) : Option RId :=
  let idle := (robotsL.filter (fun p => p.2.status == "idle")).map (·.1)
  let dist := fun r => getManhattanDist ((alookup robotsL r).getD default).node pickup
  let sorted := @List.insertionSort RId (fun r1 r2 => dist r1 ≤ dist r2)
    (fun r1 r2 => Nat.decLe (dist r1) (dist r2)) idle
  sorted.head?

/-- Processing of one queued job inside allocator_loop (the body of the
for-loop after the idle-robot check): plan both legs, and on success
reserve the trajectory, build the plan and commit job and robot. -/
def allocProcessJob (s : ServerState) (tNow : Nat) (jid : JId) : ServerState :=
  match alookup s.jobs jid with
  | none => s
  | some job =>
    match allocPickRobot s.robots job.pickup with
    | none => s
    | some rid =>
      let rob := (alookup s.robots rid).getD default
      let startNode := rob.node
      let startDir := rob.dir
      match spaceTimeAStar s.reservations s.robots GRAPH startNode job.pickup tNow rid
          MAX_SEARCH_DEPTH FUEL with
      | none => s
      | some path1 =>
        let arrivalT := tNow + path1.length - 1
        match spaceTimeAStar s.reservations s.robots GRAPH job.pickup job.drop arrivalT rid
            MAX_SEARCH_DEPTH FUEL with
        | none => s
        | some path2 =>
          let fullPath := path1 ++ path2.tail
          let resv' := reservePathTrajectory s.reservations fullPath tNow rid
          let pr1 := pathToInstrList path1 startDir
          let pr2 := pathToInstrList path2 pr1.2
          let fullInstr := pr1.1 ++ pr2.1
          let plan :=
            if fullPath.length - 1 == fullInstr.length then
              fullPath.dropLast.zip fullInstr ++ [(fullPath.getLastD "", 'D')]
            else
              [(fullPath.getLastD "", 'D')]
          let job' := { job with
            assigned_robot := some rid, status := "assigned", path := fullPath,
            plan := plan, plan_str := planToStr plan, progress_index := none }
          let rob' := { rob with
            status := "busy", current_job := some jid, current_path := fullPath,
            reservedPath := fullPath, reservedT0 := tNow }
          { s with reservations := resv',
                   jobs := aupdate s.jobs jid job',
                   job_queue := s.job_queue.erase jid,
                   robots := aupdate s.robots rid rob' }

/-- The for-loop of allocator_loop over the pending snapshot, stopping as
soon as no robot is idle. -/
def allocProcessPending (tNow : Nat) : ServerState → List JId → ServerState
  | s, [] => s
  | s, jid :: rest =>
    if s.robots.any (fun p => p.2.status == "idle") then
      allocProcessPending tNow (allocProcessJob s tNow jid) rest
    else s

/-- One iteration of allocator_loop: GC of past reservations, then process
the snapshot of queued jobs. -/
def allocatorTick (s : ServerState) (tNow : Nat) : ServerState :=
  let s1 := { s with reservations := s.reservations.filter (fun e => !(e.1.2 < tNow)),
                     now := tNow }
  let pending := s1.job_queue.filter
    (fun jid => (alookup s1.jobs jid).map (·.status) == some "queued")
  allocProcessPending tNow s1 pending

/-- The unconditional part of update_location: record node, heading and
last_seen, shrink current_path to the suffix starting at the reported node,
and record progress if a step index was sent for the current job. -/
def locationCore (s : ServerState) (rid node : String) (dirOpt : Option String)
    (stepIdx : Option Int) (tNow : Nat) : ServerState :=
  match alookup s.robots rid with
  | none => s
  | some rob0 =>
    let newDir := match dirOpt with | some d => strLower d | none => rob0.dir
    let rob1 := { rob0 with node := node, last_seen := tNow, dir := newDir }
    let rob2 :=
      if rob1.current_path.contains node then
        { rob1 with current_path := rob1.current_path.drop (rob1.current_path.indexOf node) }
      else rob1
    let s1 := { s with robots := aupdate s.robots rid rob2, now := tNow }
    match rob2.current_job, stepIdx with
    | some jid, some si =>
      match alookup s1.jobs jid with
      | some job =>
        let entry : TraceEntry := { step_index := si, node := node, dir := rob2.dir, ts := tNow }
        let job' := { job with
          progress_index := some si,
          progress_trace := job.progress_trace ++ [entry] }
        { s1 with jobs := aupdate s1.jobs jid job' }
      | none => s1
    | _, _ => s1

/-- The job_done branch of update_location before auto-parking: mark the
current job done, idle the robot, clear its path and assignment, release
its reservations. -/
def jobDoneCore (s : ServerState) (rid : RId) : ServerState :=
  match alookup s.robots rid with
  | none => s
  | some rob =>
    let s1 := match rob.current_job with
      | some jid =>
        match alookup s.jobs jid with
        | some job => { s with jobs := aupdate s.jobs jid { job with status := "done" } }
        | none => s
      | none => s
    let rob' := { rob with status := "idle", current_path := [], current_job := none }
    { s1 with robots := aupdate s1.robots rid rob',
              reservations := releaseOwner s1.reservations rid }

/-- The auto-parking block of update_location (the parking job's fresh uuid
is supplied by the caller as parkJid). -/
def autoPark (s : ServerState) (rid node parkJid : String) (tNow : Nat) : ServerState :=
  match findNearestParking s.robots node with
  | none => s
  | some parkingSpot =>
    let pj := createSystemJob node parkingSpot (some rid) tNow
    let s1 := { s with jobs := aupdate s.jobs parkJid pj }
    match spaceTimeAStar s1.reservations s1.robots GRAPH node parkingSpot tNow rid
        MAX_SEARCH_DEPTH FUEL with
    | some parkPath =>
      let resv' := reservePathTrajectory s1.reservations parkPath tNow rid
      let rob := (alookup s1.robots rid).getD default
      let instrs := pathToInstrList parkPath rob.dir
      let plan := buildPlanArray parkPath instrs.1
      let pj' := { pj with plan := plan, plan_str := planToStr plan, path := parkPath }
      let rob' := { rob with
        status := "busy", current_job := some parkJid,
        current_path := parkPath, reservedPath := parkPath, reservedT0 := tNow }
      { s1 with jobs := aupdate s1.jobs parkJid pj', reservations := resv',
                robots := aupdate s1.robots rid rob' }
    | none =>
      { s1 with jobs := aupdate s1.jobs parkJid { pj with status := "failed" } }

/-- The update_location operation. -/
def updateLocation (s : ServerState) (rid node : String) (dirOpt : Option String)
    (stepIdx : Option Int) (statusOpt : Option String) (parkJid : String) (tNow : Nat) :
    ServerState :=
  match alookup s.robots rid with
  | none => s
  | some _ =>
    let s1 := locationCore s rid node dirOpt stepIdx tNow
    if statusOpt == some "job_done" then
      let s2 := jobDoneCore s1 rid
      if PARKING_NODES.contains node then s2
      else autoPark s2 rid node parkJid tNow
    else s1

/-- The report_execution operation. -/
def reportExecution (s : ServerState) (rid : RId) (jidOpt : Option JId)
    (nwd : Option (List (Node × String))) (tNow : Nat) : ServerState :=
  match alookup s.robots rid with
  | none => s
  | some rob =>
    let rob1 := match nwd with
      | some l =>
        match l.getLast? with
        | some last =>
          { rob with
            node := last.1,
            dir := (if last.2 != "" then last.2
                    else if rob.dir != "" then rob.dir else "s") |> strLower }
        | none => rob
      | none => rob
    let report : Report :=
      { robot := rid,
        nodes_with_dir := (match nwd with
          | some l => if l.isEmpty then none else some l
          | none => none),
        ts := tNow }
    let s1 := { s with robots := aupdate s.robots rid rob1, now := tNow }
    let s2 := match jidOpt with
      | some jid =>
        match alookup s1.jobs jid with
        | some job =>
          let job' := { job with reports := job.reports ++ [report], status := "done" }
          { s1 with jobs := aupdate s1.jobs jid job' }
        | none => s1
      | none => s1
    let rob2 := { rob1 with status := "idle", current_path := [], current_job := none }
    { s2 with robots := aupdate s2.robots rid rob2,
              reservations := releaseOwner s2.reservations rid }

/-- The reset_sim operation. -/
def resetSim (s : ServerState) : ServerState :=
  { s with job_queue := [],
           reservations := [],
           jobs := s.jobs.map (fun p =>
             (p.1, if p.2.status == "assigned" then { p.2 with status := "failed" } else p.2)),
           robots := s.robots.map (fun p =>
             (p.1, { p.2 with status := "idle", current_path := [], current_job := none })) }

/-- The empty initial state of the server process. -/
def initState : ServerState :=
  { now := 0, robots := [], jobs := [], job_queue := [], reservations := [] }

/-- The states reachable through the modelled operations.  Wall-clock
arguments are monotone; caller-generated uuids are fresh. -/
inductive Reachable : ServerState → Prop where
  | init : Reachable initState
  | register (s : ServerState) (rid node dir : String) (color tNow : Nat) :
      Reachable s → s.now ≤ tNow → Reachable (registerRobot s rid node dir color tNow)
  | submit (s : ServerState) (jid pickup drop : String) (tNow : Nat) :
      Reachable s → s.now ≤ tNow → alookup s.jobs jid = none →
      Reachable (submitJob s jid pickup drop tNow)
  | tick (s : ServerState) (tNow : Nat) :
      Reachable s → s.now ≤ tNow → Reachable (allocatorTick s tNow)
  | poll (s : ServerState) (rid : RId) (tNow : Nat) :
      Reachable s → s.now ≤ tNow → Reachable (pollTask s rid tNow)
  | updateLoc (s : ServerState) (rid node : String) (dirOpt : Option String)
      (stepIdx : Option Int) (statusOpt : Option String) (parkJid : String) (tNow : Nat) :
      Reachable s → s.now ≤ tNow → alookup s.jobs parkJid = none →
      Reachable (updateLocation s rid node dirOpt stepIdx statusOpt parkJid tNow)
  | reportExec (s : ServerState) (rid : RId) (jidOpt : Option JId)
      (nwd : Option (List (Node × String))) (tNow : Nat) :
      Reachable s → s.now ≤ tNow → Reachable (reportExecution s rid jidOpt nwd tNow)
  | reset (s : ServerState) : Reachable s → Reachable (resetSim s)

section AssocLemmas

set_option linter.unusedSectionVars false

variable {κ α : Type} [BEq κ] [LawfulBEq κ]

theorem alookup_nil (k : κ) : alookup ([] : List (κ × α)) k = none := rfl

theorem alookup_cons (p : κ × α) (l : List (κ × α)) (k : κ) :
    alookup (p :: l) k = if p.1 == k then some p.2 else alookup l k := by
  simp only [alookup, List.find?]
  cases h : p.1 == k <;> simp [h]

theorem alookup_aupdate_self (l : List (κ × α)) (k : κ) (v : α) :
    alookup (aupdate l k v) k = some v := by
  induction l with
  | nil => simp [aupdate, alookup_cons]
  | cons p t ih =>
    by_cases h : p.1 == k
    · simp [aupdate, h, alookup_cons]
    · simp only [aupdate]
      rw [if_neg (by simpa using h)]
      rw [alookup_cons, if_neg (by simpa using h)]
      exact ih

theorem alookup_aupdate_ne (l : List (κ × α)) (k k' : κ) (v : α) (h : k' ≠ k) :
    alookup (aupdate l k v) k' = alookup l k' := by
  induction l with
  | nil =>
    simp only [aupdate, alookup_cons, alookup_nil]
    rw [if_neg (by simpa using fun h' => h h'.symm)]
  | cons p t ih =>
    by_cases hp : p.1 == k
    · simp only [aupdate, if_pos hp]
      rw [alookup_cons, alookup_cons]
      have : (p.1 == k') = (k == k') := by
        rw [eq_of_beq hp]
      rw [this]
      have : (k == k') = false := by
        simpa using fun h' => h h'.symm
      simp [this]
    · simp only [aupdate, if_neg hp]
      rw [alookup_cons, alookup_cons, ih]

theorem aupdate_keys_of_mem (l : List (κ × α)) (k : κ) (v w : α)
    (h : alookup l k = some v) : (aupdate l k w).map (·.1) = l.map (·.1) := by
  induction l with
  | nil => simp [alookup_nil] at h
  | cons p t ih =>
    rw [alookup_cons] at h
    by_cases hp : p.1 == k
    · simp only [aupdate, if_pos hp, List.map_cons]
      rw [eq_of_beq hp]
    · simp only [aupdate, if_neg hp, List.map_cons]
      rw [if_neg hp] at h
      rw [ih h]

theorem aupdate_self_eq (l : List (κ × α)) (k : κ) (v : α)
    (h : alookup l k = some v) : aupdate l k v = l := by
  induction l with
  | nil => simp [alookup_nil] at h
  | cons p t ih =>
    rw [alookup_cons] at h
    by_cases hp : p.1 == k
    · simp only [aupdate, if_pos hp]
      rw [if_pos hp] at h
      have h1 := eq_of_beq hp
      cases p
      simp only at h1
      simp only [if_pos hp, Option.some.injEq] at h
      simp [h1, h]
    · simp only [aupdate, if_neg hp]
      rw [if_neg hp] at h
      rw [ih h]

theorem mem_keys_of_mem_keys_aupdate (l : List (κ × α)) (k k' : κ) (v : α)
    (h : k' ∈ (aupdate l k v).map (·.1)) : k' = k ∨ k' ∈ l.map (·.1) := by
  induction l with
  | nil => simpa [aupdate] using h
  | cons p t ih =>
    by_cases hp : p.1 == k
    · simp only [aupdate, if_pos hp, List.map_cons, List.mem_cons] at h
      rcases h with h | h
      · exact Or.inl h
      · exact Or.inr (List.mem_cons_of_mem _ h)
    · simp only [aupdate, if_neg hp, List.map_cons, List.mem_cons] at h
      rcases h with h | h
      · exact Or.inr (by simp [h])
      · rcases ih h with h' | h'
        · exact Or.inl h'
        · exact Or.inr (by simp [h'])

theorem nodupKeys_aupdate (l : List (κ × α)) (k : κ) (v : α)
    (h : (l.map (·.1)).Nodup) : ((aupdate l k v).map (·.1)).Nodup := by
  induction l with
  | nil => simp [aupdate]
  | cons p t ih =>
    simp only [List.map_cons, List.nodup_cons] at h
    by_cases hp : p.1 == k
    · simp only [aupdate, if_pos hp, List.map_cons, List.nodup_cons]
      refine ⟨?_, h.2⟩
      rw [← eq_of_beq hp]
      exact h.1
    · simp only [aupdate, if_neg hp, List.map_cons, List.nodup_cons]
      refine ⟨?_, ih h.2⟩
      intro hmem
      rcases mem_keys_of_mem_keys_aupdate t k p.1 v hmem with h' | h'
      · exact absurd h' (by simpa using hp)
      · exact h.1 h'

theorem nodupKeys_filter (l : List (κ × α)) (p : κ × α → Bool)
    (h : (l.map (·.1)).Nodup) : ((l.filter p).map (·.1)).Nodup := by
  exact List.Nodup.sublist (List.Sublist.map _ (List.filter_sublist l)) h

end AssocLemmas

/-- Uniqueness of reservation-table keys: each (cell, time) key occurs at
most once, so it is owned by exactly one robot. -/
def ResKeysUnique (s : ServerState) : Prop :=
  (s.reservations.map (·.1)).Nodup

theorem nodupKeys_reserveFrom (rid : RId) (path : List Node) :
    ∀ (r : ResTable) (t : Nat), (r.map (·.1)).Nodup →
      ((reserveFrom rid r path t).map (·.1)).Nodup := by
  induction path with
  | nil => intro r t h; simpa [reserveFrom] using h
  | cons n rest ih =>
    intro r t h
    simp only [reserveFrom]
    exact ih _ _ (nodupKeys_aupdate _ _ _ h)

theorem nodupKeys_reservePathTrajectory (resv : ResTable) (path : List Node) (t0 : Nat)
    (rid : RId) (h : (resv.map (·.1)).Nodup) :
    ((reservePathTrajectory resv path t0 rid).map (·.1)).Nodup :=
  nodupKeys_reserveFrom rid path _ t0 (nodupKeys_filter _ _ h)

theorem resKeysUnique_allocProcessJob (s : ServerState) (tNow : Nat) (jid : JId)
    (h : ResKeysUnique s) : ResKeysUnique (allocProcessJob s tNow jid) := by
  unfold allocProcessJob
  split
  · exact h
  split
  · exact h
  dsimp only
  split
  · exact h
  split
  · exact h
  exact nodupKeys_reservePathTrajectory _ _ _ _ h

theorem resKeysUnique_allocProcessPending (tNow : Nat) (pending : List JId) :
    ∀ s : ServerState, ResKeysUnique s → ResKeysUnique (allocProcessPending tNow s pending) := by
  induction pending with
  | nil => intro s h; exact h
  | cons jid rest ih =>
    intro s h
    simp only [allocProcessPending]
    by_cases hc : s.robots.any (fun p => p.2.status == "idle")
    · rw [if_pos hc]
      exact ih _ (resKeysUnique_allocProcessJob s tNow jid h)
    · rw [if_neg hc]
      exact h

theorem resKeysUnique_allocatorTick (s : ServerState) (tNow : Nat)
    (h : ResKeysUnique s) : ResKeysUnique (allocatorTick s tNow) := by
  unfold allocatorTick
  exact resKeysUnique_allocProcessPending tNow _ _ (nodupKeys_filter _ _ h)

theorem reservations_locationCore (s : ServerState) (rid node : String)
    (dirOpt : Option String) (stepIdx : Option Int) (tNow : Nat) :
    (locationCore s rid node dirOpt stepIdx tNow).reservations = s.reservations := by
  unfold locationCore
  split
  · rfl
  dsimp only
  split
  · split
    · rfl
    · rfl
  · rfl

theorem resKeysUnique_jobDoneCore (s : ServerState) (rid : RId)
    (h : ResKeysUnique s) : ResKeysUnique (jobDoneCore s rid) := by
  unfold jobDoneCore
  split
  · exact h
  dsimp only
  refine nodupKeys_filter _ _ ?_
  split
  · split
    · exact h
    · exact h
  · exact h

theorem resKeysUnique_autoPark (s : ServerState) (rid node parkJid : String) (tNow : Nat)
    (h : ResKeysUnique s) : ResKeysUnique (autoPark s rid node parkJid tNow) := by
  unfold autoPark
  split
  · exact h
  dsimp only
  split
  · exact nodupKeys_reservePathTrajectory _ _ _ _ h
  · exact h

theorem resKeysUnique_updateLocation (s : ServerState) (rid node : String)
    (dirOpt : Option String) (stepIdx : Option Int) (statusOpt : Option String)
    (parkJid : String) (tNow : Nat) (h : ResKeysUnique s) :
    ResKeysUnique (updateLocation s rid node dirOpt stepIdx statusOpt parkJid tNow) := by
  unfold updateLocation
  have hcore : ResKeysUnique (locationCore s rid node dirOpt stepIdx tNow) := by
    unfold ResKeysUnique
    rw [reservations_locationCore]
    exact h
  split
  · exact h
  dsimp only
  split
  · split
    · exact resKeysUnique_jobDoneCore _ _ hcore
    · exact resKeysUnique_autoPark _ _ _ _ _ (resKeysUnique_jobDoneCore _ _ hcore)
  · exact hcore

theorem resKeysUnique_reportExecution (s : ServerState) (rid : RId) (jidOpt : Option JId)
    (nwd : Option (List (Node × String))) (tNow : Nat) (h : ResKeysUnique s) :
    ResKeysUnique (reportExecution s rid jidOpt nwd tNow) := by
  unfold reportExecution
  split
  · exact h
  dsimp only
  refine nodupKeys_filter _ _ ?_
  split
  · split
    · exact h
    · exact h
  · exact h

theorem resKeysUnique_reachable (s : ServerState) (h : Reachable s) : ResKeysUnique s := by
  induction h with
  | init => simp [ResKeysUnique, initState]
  | register s rid node dir color tNow _ _ ih => exact ih
  | submit s jid pickup drop tNow _ _ _ ih => exact ih
  | tick s tNow _ _ ih => exact resKeysUnique_allocatorTick s tNow ih
  | poll s rid tNow _ _ ih =>
    unfold pollTask
    split
    · exact ih
    · exact ih
  | updateLoc s rid node dirOpt stepIdx statusOpt parkJid tNow _ _ _ ih =>
    exact resKeysUnique_updateLocation s rid node dirOpt stepIdx statusOpt parkJid tNow ih
  | reportExec s rid jidOpt nwd tNow _ _ ih =>
    exact resKeysUnique_reportExecution s rid jidOpt nwd tNow ih
  | reset s _ ih => simp [ResKeysUnique, resetSim]

theorem value_eq_of_nodupKeys {κ α : Type} [BEq κ] [LawfulBEq κ] (l : List (κ × α))
    (h : (l.map (·.1)).Nodup) (k : κ) (v w : α)
    (hv : (k, v) ∈ l) (hw : (k, w) ∈ l) : v = w := by
  induction l with
  | nil => cases hv
  | cons p t ih =>
    simp only [List.map_cons, List.nodup_cons] at h
    rcases List.mem_cons.mp hv with hv' | hv' <;> rcases List.mem_cons.mp hw with hw' | hw'
    · rw [← hv'] at hw'
      exact (congrArg Prod.snd hw').symm
    · exfalso
      apply h.1
      rw [← hv']
      exact List.mem_map_of_mem (·.1) hw'
    · exfalso
      apply h.1
      rw [← hw']
      exact List.mem_map_of_mem (·.1) hv'
    · exact ih h.2 hv' hw'

/-- Robot r's reserved trajectory (as recorded when its plan was reserved)
covers cell c at absolute time t, and r is currently busy. -/
def robotReservedAt (s : ServerState) (r : RId) (c : Node) (t : Nat) : Prop :=
  ∃ rob, alookup s.robots r = some rob ∧ rob.status = "busy" ∧
    ∃ i, rob.reservedPath[i]? = some c ∧ rob.reservedT0 + i = t

/-- Claim C1 as stated: in every reachable state, the space-time
trajectories reserved by two distinct busy robots are disjoint (P5). -/
def VertexNonCollision : Prop :=
  ∀ s : ServerState, Reachable s → ∀ r1 r2 : RId, ∀ c : Node, ∀ t : Nat, r1 ≠ r2 →
    robotReservedAt s r1 c t → robotReservedAt s r2 c t → False

/-- A concrete reachable state violating P5: r1 is assigned a plan
81-71-72 reserved from t=100; r2 then registers as idle on cell 72 (which
is on r1's future trajectory) and is assigned a plan 72-73-83 reserved from
t=102.  The A* search never safety-checks a plan's start cell at its start
time, and reserve_path_trajectory overwrites, so both busy robots hold
(72, 102) in their reserved trajectories. -/
def sColl : ServerState :=
  allocatorTick
    (submitJob
      (registerRobot
        (allocatorTick
          (submitJob (registerRobot initState "r1" "81" "s" 0 0) "j1" "71" "72" 0)
          100)
        "r2" "72" "s" 0 101)
      "j2" "73" "83" 101)
    102

theorem reachable_sColl : Reachable sColl := by
  apply Reachable.tick
  · apply Reachable.submit
    · apply Reachable.register
      · apply Reachable.tick
        · apply Reachable.submit
          · apply Reachable.register
            · exact Reachable.init
            · decide
          · decide
          · decide
        · decide
      · decide
    · decide
    · decide
  · decide

/-- Claim C1, counterexample: the vertex non-collision property P5 is false
for the code; in the reachable state sColl the distinct busy robots r1 and
r2 both hold cell 72 at time 102 in their reserved trajectories (r1 at plan
index 2 with start time 100, r2 at plan index 0 with start time 102). -/
theorem C1_vertexNonCollision_counterexample : ¬ VertexNonCollision := by
  intro hcl
  have h1 : alookup sColl.robots "r1" = some ((alookup sColl.robots "r1").getD default) ∧
      ((alookup sColl.robots "r1").getD default).status = "busy" ∧
      ((alookup sColl.robots "r1").getD default).reservedPath[2]? = some "72" ∧
      ((alookup sColl.robots "r1").getD default).reservedT0 + 2 = 102 := by decide
  have h2 : alookup sColl.robots "r2" = some ((alookup sColl.robots "r2").getD default) ∧
      ((alookup sColl.robots "r2").getD default).status = "busy" ∧
      ((alookup sColl.robots "r2").getD default).reservedPath[0]? = some "72" ∧
      ((alookup sColl.robots "r2").getD default).reservedT0 + 0 = 102 := by decide
  exact hcl sColl reachable_sColl "r1" "r2" "72" 102 (by decide)
    ⟨_, h1.1, h1.2.1, 2, h1.2.2.1, h1.2.2.2⟩
    ⟨_, h2.1, h2.2.1, 0, h2.2.2.1, h2.2.2.2⟩

/-- Claim C1, amended: what does hold in every reachable state is the
reservation-table form of the invariant (I1): the table keys are pairwise
distinct, so every reserved (cell, time) pair is owned by exactly one
robot — the space-time reservations held by distinct robots, as recorded
in the reservation table, are disjoint.  (The plan-level form P5 fails
only because a newly assigned plan's start cell at its start time is never
safety-checked and its reservation overwrites the previous owner's.) -/
theorem C1_reservationTable_functional (s : ServerState) (h : Reachable s) :
    (s.reservations.map (·.1)).Nodup ∧
    ∀ c : Node, ∀ t : Nat, ∀ o1 o2 : RId,
      ((c, t), o1) ∈ s.reservations → ((c, t), o2) ∈ s.reservations → o1 = o2 := by
  refine ⟨resKeysUnique_reachable s h, ?_⟩
  intro c t o1 o2 h1 h2
  exact value_eq_of_nodupKeys s.reservations (resKeysUnique_reachable s h) (c, t) o1 o2 h1 h2

/-- Witness for C1_reservationTable_functional at the concrete reachable
state sColl, whose reservation table is nonempty. -/
theorem C1_reservationTable_functional_witness :
    Reachable sColl ∧
      ((sColl.reservations.map (·.1)).Nodup ∧
      ∀ c : Node, ∀ t : Nat, ∀ o1 o2 : RId,
        ((c, t), o1) ∈ sColl.reservations → ((c, t), o2) ∈ sColl.reservations → o1 = o2) :=
  ⟨reachable_sColl, C1_reservationTable_functional sColl reachable_sColl⟩

theorem alookup_map_values {κ α : Type} [BEq κ] [LawfulBEq κ] (f : α → α) (l : List (κ × α)) (k : κ) :
    alookup (l.map (fun p => (p.1, f p.2))) k = (alookup l k).map f := by
  induction l with
  | nil => rfl
  | cons p t ih =>
    rw [List.map_cons, alookup_cons, alookup_cons]
    by_cases hp : p.1 == k
    · simp [hp]
    · simp only [hp]
      rw [if_neg (by simp [hp]), if_neg (by simp [hp])]
      exact ih

/-- Claim C3, code evaluated at the failing input: translating the wait
step [81, 81] from initial heading s yields the single command U and the
flipped final heading n — not the command S with unchanged heading s that
the specification requires for a wait step.  (direction_between returns
None on a repeated cell because the graph has no self-edges, so the
translator takes its malformed-path branch.) -/
theorem C3_waitStep_eval : pathToInstrList ["81", "81"] "s" = (['U'], "n") := by decide

/-- Claim C9: reset empties the queue and the reservation table, sets every
robot idle with a cleared current path and no current job, marks exactly
the assigned jobs failed and leaves all other jobs unchanged. -/
theorem C9_reset (s : ServerState) :
    (resetSim s).job_queue = [] ∧
    (resetSim s).reservations = [] ∧
    (resetSim s).robots = s.robots.map (fun p =>
      (p.1, { p.2 with status := "idle", current_path := [], current_job := none })) ∧
    (∀ r : RId, alookup (resetSim s).robots r =
      (alookup s.robots r).map (fun rob =>
        { rob with status := "idle", current_path := [], current_job := none })) ∧
    (∀ j : JId, alookup (resetSim s).jobs j =
      (alookup s.jobs j).map (fun job =>
        if job.status == "assigned" then { job with status := "failed" } else job)) := by
  refine ⟨rfl, rfl, rfl, ?_, ?_⟩
  · intro r
    exact alookup_map_values
      (fun rob => { rob with status := "idle", current_path := [], current_job := none })
      s.robots r
  · intro j
    exact alookup_map_values
      (fun job => if job.status == "assigned" then { job with status := "failed" } else job)
      s.jobs j

/-- Conclusion of claim C10: after re-registering a currently busy robot,
the robot record is fresh (idle, at the reported cell and heading, empty
path, no current job) except that the old color is retained; the job
table, reservation table and queue are untouched, so the job assigned to
the robot is still assigned to it and every reservation the robot owns
remains. -/
def C10Concl (s : ServerState) (rid node dir : String) (color tNow : Nat) (rob : Robot) :
    Prop :=
  alookup (registerRobot s rid node dir color tNow).robots rid =
    some { status := "idle", node := node, dir := strLower dir, color := rob.color,
           current_path := [], current_job := none, last_seen := tNow,
           reservedPath := [], reservedT0 := 0 } ∧
  (registerRobot s rid node dir color tNow).jobs = s.jobs ∧
  (registerRobot s rid node dir color tNow).reservations = s.reservations ∧
  (registerRobot s rid node dir color tNow).job_queue = s.job_queue ∧
  (∀ jid : JId, ∀ job : Job, alookup s.jobs jid = some job →
    job.assigned_robot = some rid → job.status = "assigned" →
    alookup (registerRobot s rid node dir color tNow).jobs jid = some job) ∧
  (∀ key : Node × Nat, alookup s.reservations key = some rid →
    alookup (registerRobot s rid node dir color tNow).reservations key = some rid)

/-- Claim C10: register_robot on the id of a currently busy robot replaces
its record by a fresh idle record retaining only the color, while the
assigned job and all of the robot's reservations remain untouched. -/
theorem C10_registerBusyRobot (s : ServerState) (rid node dir : String) (color tNow : Nat)
    (rob : Robot) (hr : alookup s.robots rid = some rob) (_hb : rob.status = "busy") :
    C10Concl s rid node dir color tNow rob := by
  unfold C10Concl registerRobot
  rw [hr]
  refine ⟨alookup_aupdate_self _ _ _, rfl, rfl, rfl, ?_, ?_⟩
  · intro jid job hj _ _
    exact hj
  · intro key hk
    exact hk

/-- The busy robot record of the C10 witness state. -/
def rob10 : Robot :=
  { status := "busy", node := "33", dir := "n", color := 7,
    current_path := ["33", "34"], current_job := some "j1", last_seen := 0,
    reservedPath := ["33", "34"], reservedT0 := 5 }

/-- The assigned job record of the C10 witness state. -/
def job10 : Job :=
  { pickup := "33", drop := "34", status := "assigned",
    assigned_robot := some "r1", path := ["33", "34"], plan := [], plan_str := "",
    progress_index := none, progress_trace := [], reports := [], submitted_ts := 0 }

/-- A concrete state with one busy robot holding a job and reservations. -/
def s10w : ServerState :=
  { now := 0, robots := [("r1", rob10)], jobs := [("j1", job10)], job_queue := [],
    reservations := [(("33", 5), "r1"), (("34", 6), "r1")] }

/-- Witness for C10_registerBusyRobot at the concrete state s10w. -/
theorem C10_registerBusyRobot_witness :
    (alookup s10w.robots "r1" = some rob10 ∧ rob10.status = "busy") ∧
      C10Concl s10w "r1" "45" "e" 9 3 rob10 :=
  ⟨by decide, C10_registerBusyRobot s10w "r1" "45" "e" 9 3 rob10 (by decide) (by decide)⟩

/-- The first element of a list achieving the minimal key: the element a
stable sort by that key puts first. -/
def firstMinBy {α : Type} (key : α → Nat) : List α → Option α
  | [] => none
  | x :: xs =>
    match firstMinBy key xs with
    | none => some x
    | some m => if key x ≤ key m then some x else some m

theorem insertionSort_length {α : Type} (r : α → α → Prop) [DecidableRel r] (l : List α) :
    (List.insertionSort r l).length = l.length :=
  (List.perm_insertionSort r l).length_eq

theorem head_insertionSort_eq_firstMinBy {α : Type} (key : α → Nat) (l : List α) :
    (@List.insertionSort α (fun a b => key a ≤ key b)
      (fun a b => Nat.decLe (key a) (key b)) l).head? = firstMinBy key l := by
  induction l with
  | nil => rfl
  | cons x xs ih =>
    rw [List.insertionSort]
    cases hs : @List.insertionSort α (fun a b => key a ≤ key b)
        (fun a b => Nat.decLe (key a) (key b)) xs with
    | nil =>
      have hx : xs = [] := by
        have := insertionSort_length (fun a b => key a ≤ key b) xs
        rw [hs] at this
        exact List.length_eq_zero.mp this.symm
      subst hx
      rfl
    | cons y ys =>
      rw [hs] at ih
      simp only [List.head?] at ih
      rw [List.orderedInsert]
      simp only [firstMinBy, ← ih]
      by_cases hle : key x ≤ key y
      · rw [if_pos hle, if_pos hle]
        rfl
      · rw [if_neg hle, if_neg hle]
        rfl

theorem firstMinBy_eq_none {α : Type} (key : α → Nat) (l : List α)
    (h : firstMinBy key l = none) : l = [] := by
  cases l with
  | nil => rfl
  | cons x xs =>
    exfalso
    simp only [firstMinBy] at h
    cases hm : firstMinBy key xs with
    | none =>
      rw [hm] at h
      cases h
    | some m =>
      rw [hm] at h
      have h' : (if key x ≤ key m then some x else some m) = none := h
      by_cases hle : key x ≤ key m
      · rw [if_pos hle] at h'
        cases h'
      · rw [if_neg hle] at h'
        cases h'

theorem firstMinBy_spec {α : Type} (key : α → Nat) (l : List α) (m : α)
    (h : firstMinBy key l = some m) :
    ∃ pre post, l = pre ++ m :: post ∧ (∀ y ∈ pre, key m < key y) ∧
      ∀ y ∈ l, key m ≤ key y := by
  induction l generalizing m with
  | nil => cases h
  | cons x xs ih =>
    simp only [firstMinBy] at h
    cases hx : firstMinBy key xs with
    | none =>
      rw [hx] at h
      have hxs := firstMinBy_eq_none key xs hx
      subst hxs
      cases h
      exact ⟨[], [], rfl, by simp, by simp⟩
    | some m' =>
      rw [hx] at h
      have h' : (if key x ≤ key m' then some x else some m') = some m := h
      obtain ⟨pre', post', hsplit, hpre', hmin'⟩ := ih m' hx
      by_cases hle : key x ≤ key m'
      · rw [if_pos hle] at h'
        cases h'
        refine ⟨[], xs, rfl, by simp, ?_⟩
        intro y hy
        rcases List.mem_cons.mp hy with hy' | hy'
        · subst hy'; exact le_refl _
        · exact le_trans hle (hmin' y hy')
      · rw [if_neg hle] at h'
        cases h'
        refine ⟨x :: pre', post', by rw [hsplit, List.cons_append], ?_, ?_⟩
        · intro y hy
          rcases List.mem_cons.mp hy with hy' | hy'
          · subst hy'; exact Nat.lt_of_not_le hle
          · exact hpre' y hy'
        · intro y hy
          rcases List.mem_cons.mp hy with hy' | hy'
          · subst hy'; exact le_of_lt (Nat.lt_of_not_le hle)
          · exact hmin' y hy'

/-- An idle robot parked at the given cell (used by concrete scenarios). -/
def mkIdleRobot (node : Node) : Robot :=
  { status := "idle", node := node, dir := "s", color := 0, current_path := [],
    current_job := none, last_seen := 0, reservedPath := [], reservedT0 := 0 }

/-- Claim C5: when the allocator picks a robot for a queued job, the chosen
robot is idle, its Manhattan distance to the pickup is minimal among all
idle robots, and every idle robot listed before it in robot-table order is
strictly farther (ties are broken by insertion order). -/
theorem C5_nearestIdleRobot (robotsL : List (RId × Robot)) (pickup : Node) (rid : RId)
    (h : allocPickRobot robotsL pickup = some rid) :
    ∃ pre post,
      (robotsL.filter (fun p => p.2.status == "idle")).map (·.1) = pre ++ rid :: post ∧
      (∀ r ∈ pre,
        getManhattanDist ((alookup robotsL rid).getD default).node pickup <
        getManhattanDist ((alookup robotsL r).getD default).node pickup) ∧
      ∀ r ∈ (robotsL.filter (fun p => p.2.status == "idle")).map (·.1),
        getManhattanDist ((alookup robotsL rid).getD default).node pickup ≤
        getManhattanDist ((alookup robotsL r).getD default).node pickup := by
  unfold allocPickRobot at h
  rw [head_insertionSort_eq_firstMinBy] at h
  exact firstMinBy_spec _ _ rid h

/-- The robot table of the C5 witness: r1 at distance 2 from cell 33, r2
and r3 tied at distance 1. -/
def c5Robots : List (RId × Robot) :=
  [("r1", mkIdleRobot "31"), ("r2", mkIdleRobot "32"), ("r3", mkIdleRobot "23")]

/-- Witness for C5_nearestIdleRobot: the sort picks r2, the earliest of
the two tied nearest robots. -/
theorem C5_nearestIdleRobot_witness :
    allocPickRobot c5Robots "33" = some "r2" ∧
    ∃ pre post,
      ((c5Robots.filter (fun p => p.2.status == "idle")).map (·.1) = pre ++ "r2" :: post ∧
        (∀ r ∈ pre,
          getManhattanDist ((alookup c5Robots "r2").getD default).node "33" <
          getManhattanDist ((alookup c5Robots r).getD default).node "33") ∧
        ∀ r ∈ (c5Robots.filter (fun p => p.2.status == "idle")).map (·.1),
          getManhattanDist ((alookup c5Robots "r2").getD default).node "33" ≤
          getManhattanDist ((alookup c5Robots r).getD default).node "33") := by
  exact ⟨by decide, C5_nearestIdleRobot c5Robots "33" "r2" (by decide)⟩

/-- Claim C6: when the allocator processes a queued job and either planning
leg returns NoPath, the whole state is unchanged: the job stays in the
queue in status queued (not failed, not removed) and no reservations are
created; the allocator will simply retry on a later tick. -/
theorem C6_noPathKeepsJobQueued (s : ServerState) (tNow : Nat) (jid : JId) (job : Job)
    (rid : RId)
    (hj : alookup s.jobs jid = some job) (hq : job.status = "queued")
    (hp : allocPickRobot s.robots job.pickup = some rid)
    (hfail :
      spaceTimeAStar s.reservations s.robots GRAPH
        ((alookup s.robots rid).getD default).node job.pickup tNow rid
        MAX_SEARCH_DEPTH FUEL = none ∨
      ∃ path1,
        spaceTimeAStar s.reservations s.robots GRAPH
          ((alookup s.robots rid).getD default).node job.pickup tNow rid
          MAX_SEARCH_DEPTH FUEL = some path1 ∧
        spaceTimeAStar s.reservations s.robots GRAPH job.pickup job.drop
          (tNow + path1.length - 1) rid MAX_SEARCH_DEPTH FUEL = none) :
    allocProcessJob s tNow jid = s ∧
    alookup (allocProcessJob s tNow jid).jobs jid = some job ∧
    job.status = "queued" ∧
    (allocProcessJob s tNow jid).job_queue = s.job_queue ∧
    (allocProcessJob s tNow jid).reservations = s.reservations := by
  have hmain : allocProcessJob s tNow jid = s := by
    rcases hfail with h1 | ⟨path1, h1, h2⟩
    · simp only [allocProcessJob, hj, hp, h1]
    · simp only [allocProcessJob, hj, hp, h1, h2]
  rw [hmain]
  exact ⟨rfl, hj, hq, rfl, rfl⟩

/-- The queued job of the C6 witness: pickup 36, drop 35. -/
def job6 : Job :=
  { pickup := "36", drop := "35", status := "queued", assigned_robot := none,
    path := [], plan := [], plan_str := "", progress_index := none,
    progress_trace := [], reports := [], submitted_ts := 0 }

/-- The C6 witness state.  The chosen robot rx sits on cell 26, whose only
out-edge leads to 25; the idle robot rb parked on 25 blocks that move and
the idle robot rc parked on 26 itself blocks waiting in place (is_safe
treats every other idle robot as a static blocker), so the very first
expansion pushes nothing and the search frontier is exhausted: leg 1
genuinely returns NoPath.  All cells involved are graph nodes. -/
def s6w : ServerState :=
  { now := 0,
    robots := [("rx", mkIdleRobot "26"), ("rb", mkIdleRobot "25"), ("rc", mkIdleRobot "26")],
    jobs := [("jq", job6)], job_queue := ["jq"], reservations := [] }

/-- Witness for C6_noPathKeepsJobQueued: rx (distance 1 to pickup 36, tied
with rc but earlier in the table) is picked, leg 1 from 26 exhausts its
frontier and returns NoPath, and the allocator leaves the state
untouched. -/
theorem C6_noPathKeepsJobQueued_witness :
    (alookup s6w.jobs "jq" = some job6 ∧ job6.status = "queued" ∧
      allocPickRobot s6w.robots job6.pickup = some "rx" ∧
      spaceTimeAStar s6w.reservations s6w.robots GRAPH
        ((alookup s6w.robots "rx").getD default).node job6.pickup 5 "rx"
        MAX_SEARCH_DEPTH FUEL = none) ∧
    (allocProcessJob s6w 5 "jq" = s6w ∧
      alookup (allocProcessJob s6w 5 "jq").jobs "jq" = some job6 ∧
      job6.status = "queued" ∧
      (allocProcessJob s6w 5 "jq").job_queue = s6w.job_queue ∧
      (allocProcessJob s6w 5 "jq").reservations = s6w.reservations) :=
  ⟨⟨by decide, by decide, by decide, by decide⟩,
    C6_noPathKeepsJobQueued s6w 5 "jq" job6 "rx" (by decide) (by decide) (by decide)
      (Or.inl (by decide))⟩

/-- b is a directed out-edge target of a in the graph. -/
def isGraphStep (graph : List (Node × List (String × Node))) (a b : Node) : Prop :=
  b ∈ ((alookup graph a).getD []).map (·.2)

/-- Every successive pair of the path is a directed graph edge or a wait
(the same cell twice). -/
def chainOk (graph : List (Node × List (String × Node))) (p : List Node) : Prop :=
  List.Chain' (fun a b => isGraphStep graph a b ∨ b = a) p

/-- Invariant of every entry (f, g, node, path) in the A* frontier: the
path starts at the search start, ends at the entry's node, walks only
edges or waits, takes at most maxTime steps, and its step count (scaled
by 10) is bounded by the accumulated cost g. -/
def entryOk (graph : List (Node × List (String × Node))) (start : Node) (maxTime : Nat)
    (e : AStarEntry) : Prop :=
  e.2.2.2 ≠ [] ∧ e.2.2.2.head? = some start ∧ e.2.2.2.getLast? = some e.2.2.1 ∧
  chainOk graph e.2.2.2 ∧ e.2.2.2.length - 1 ≤ maxTime ∧
  10 * (e.2.2.2.length - 1) ≤ e.2.1

theorem mem_heapPush (e x : AStarEntry) (l : List AStarEntry) (h : x ∈ heapPush e l) :
    x = e ∨ x ∈ l := by
  induction l with
  | nil => simpa [heapPush] using h
  | cons y ys ih =>
    simp only [heapPush] at h
    cases hc : entryLt e y with
    | true =>
      rw [hc] at h
      simp only [if_true] at h
      rcases List.mem_cons.mp h with h' | h'
      · exact Or.inl h'
      · exact Or.inr h'
    | false =>
      rw [hc] at h
      rw [if_neg (by simp)] at h
      rcases List.mem_cons.mp h with h' | h'
      · exact Or.inr (by simp [h'])
      · rcases ih h' with h'' | h''
        · exact Or.inl h''
        · exact Or.inr (by simp [h''])

theorem foldl_inv {α β : Type} (f : β → α → β) (P : β → Prop) (l : List α) :
    ∀ b : β, P b → (∀ b' a, a ∈ l → P b' → P (f b' a)) → P (l.foldl f b) := by
  induction l with
  | nil => intro b hb _; exact hb
  | cons x xs ih =>
    intro b hb hstep
    exact ih (f b x) (hstep b x (List.mem_cons_self x xs) hb)
      (fun b' a ha hb' => hstep b' a (List.mem_cons_of_mem x ha) hb')

theorem astarExpand_inv (resv : ResTable) (robotsL : List (RId × Robot))
    (graph : List (Node × List (String × Node))) (endN : Node) (rid : RId)
    (start : Node) (maxTime : Nat) (g : Nat) (curr : Node) (path : List Node)
    (currentTime : Nat) (acc : List AStarEntry × List (Node × Nat)) (nb : Node)
    (hne : path ≠ []) (hh : path.head? = some start) (hl : path.getLast? = some curr)
    (hc : chainOk graph path) (hcost : 10 * (path.length - 1) ≤ g)
    (hg : ¬ 10 * maxTime ≤ g)
    (hnb : isGraphStep graph curr nb ∨ nb = curr)
    (hacc : ∀ e ∈ acc.1, entryOk graph start maxTime e) :
    ∀ e ∈ (astarExpand resv robotsL endN rid g curr path currentTime acc nb).1,
      entryOk graph start maxTime e := by
  unfold astarExpand
  by_cases hvis : acc.2.any (fun v => v.1 == nb && v.2 == (currentTime + 10)) = true
  · rw [if_pos hvis]
    exact hacc
  · rw [if_neg hvis]
    by_cases hsafe : isSafe resv robotsL nb (currentTime + 10) rid = true
    · rw [if_pos hsafe]
      intro e he
      rcases mem_heapPush _ e _ he with he' | he'
      · subst he'
        have hlen1 : path.length - 1 < maxTime := by
          have h10 : 10 * (path.length - 1) < 10 * maxTime :=
            lt_of_le_of_lt hcost (Nat.lt_of_not_le hg)
          exact Nat.lt_of_mul_lt_mul_left h10
        have hplen : path.length = path.length - 1 + 1 :=
          (Nat.succ_pred_eq_of_pos (List.length_pos.mpr hne)).symm
        refine ⟨by simp, ?_, ?_, ?_, ?_, ?_⟩
        · rw [List.head?_append, hh]
          rfl
        · simp only
          exact List.getLast?_concat path
        · refine List.Chain'.append hc (List.chain'_singleton nb) ?_
          intro x hx y hy
          rw [hl] at hx
          cases hx
          cases hy
          exact hnb
        · simp only [List.length_append, List.length_singleton]
          rw [Nat.add_sub_cancel, hplen]
          exact hlen1
        · simp only [List.length_append, List.length_singleton]
          rw [Nat.add_sub_cancel]
          have hb : 10 * path.length ≤ g + 10 := by
            rw [hplen]
            omega
          refine le_trans hb ?_
          by_cases hw : (nb == curr) = true
          · rw [if_pos hw]
            omega
          · rw [if_neg hw]
      · exact hacc e he'
    · rw [if_neg hsafe]
      exact hacc

theorem astarLoop_sound (resv : ResTable) (robotsL : List (RId × Robot))
    (graph : List (Node × List (String × Node))) (endN : Node) (t0 : Nat) (rid : RId)
    (maxTime : Nat) (start : Node) :
    ∀ (fuel : Nat) (openSet : List AStarEntry) (visited : List (Node × Nat)) (p : List Node),
      (∀ e ∈ openSet, entryOk graph start maxTime e) →
      astarLoop resv robotsL graph endN t0 rid maxTime fuel openSet visited = some p →
      p.head? = some start ∧ p.getLast? = some endN ∧ chainOk graph p ∧
        p.length - 1 ≤ maxTime := by
  intro fuel
  induction fuel with
  | zero =>
    intro openSet visited p _ hres
    exact Option.noConfusion hres
  | succ n ih =>
    intro openSet visited p hinv hres
    match openSet, hinv with
    | [], _ =>
      exact Option.noConfusion hres
    | (f, g, curr, path) :: rest, hinv =>
      have hhead := hinv _ (List.mem_cons_self _ _)
      obtain ⟨hne, hh, hl, hc, hlen, hcost⟩ := hhead
      unfold astarLoop at hres
      by_cases h1 : (curr == endN) = true
      · rw [if_pos h1] at hres
        have hp : path = p := Option.some.inj hres
        subst hp
        refine ⟨hh, ?_, hc, hlen⟩
        rw [hl]
        exact congrArg some (eq_of_beq h1)
      · rw [if_neg h1] at hres
        by_cases h2 : 10 * maxTime ≤ g
        · rw [if_pos h2] at hres
          exact ih rest visited p (fun e he => hinv e (List.mem_cons_of_mem _ he)) hres
        · rw [if_neg h2] at hres
          refine ih _ _ p ?_ hres
          have hrest : ∀ e ∈ rest, entryOk graph start maxTime e :=
            fun e he => hinv e (List.mem_cons_of_mem _ he)
          refine foldl_inv _ (fun acc => ∀ e ∈ acc.1, entryOk graph start maxTime e) _
            (rest, visited) hrest ?_
          intro acc nb hnb hacc
          refine astarExpand_inv resv robotsL graph endN rid start maxTime g curr path
            (10 * t0 + g) acc nb hne hh hl hc hcost h2 ?_ hacc
          rcases List.mem_append.mp hnb with hn | hn
          · exact Or.inl hn
          · exact Or.inr (List.mem_singleton.mp hn)

/-- Soundness of space_time_a_star: every returned path begins at start,
ends at the goal, walks only directed graph edges or waits, and takes at
most maxTime steps — for every fuel value. -/
theorem spaceTimeAStar_sound (resv : ResTable) (robotsL : List (RId × Robot))
    (graph : List (Node × List (String × Node))) (start endN : Node) (t0 : Nat)
    (rid : RId) (maxTime fuel : Nat) (p : List Node)
    (h : spaceTimeAStar resv robotsL graph start endN t0 rid maxTime fuel = some p) :
    p.head? = some start ∧ p.getLast? = some endN ∧ chainOk graph p ∧
      p.length - 1 ≤ maxTime := by
  refine astarLoop_sound resv robotsL graph endN t0 rid maxTime start fuel
    [(0, 0, start, [start])] [] p ?_ h
  intro e he
  rw [List.mem_singleton] at he
  subst he
  refine ⟨by simp, rfl, rfl, List.chain'_singleton start, ?_, ?_⟩
  · simp
  · simp

instance chainOkDecidable (graph : List (Node × List (String × Node))) (p : List Node) :
    Decidable (chainOk graph p) := by
  unfold chainOk
  have : DecidableRel (fun a b : Node => isGraphStep graph a b ∨ b = a) := by
    intro a b
    unfold isGraphStep
    infer_instance
  exact List.decidableChain' p

/-- Claim C4: whenever the space-time planner returns a path (rather than
NoPath), the path begins at start, ends at the goal, every successive pair
of cells is a directed graph edge or a wait, and it takes at most
MAX_SEARCH_DEPTH = 60 steps; this holds for every graph, start, goal,
start time, robot id, reservation table, robot table and fuel. -/
theorem C4_plannerSound (resv : ResTable) (robotsL : List (RId × Robot))
    (graph : List (Node × List (String × Node))) (start endN : Node) (t0 : Nat)
    (rid : RId) (fuel : Nat) (p : List Node)
    (h : spaceTimeAStar resv robotsL graph start endN t0 rid MAX_SEARCH_DEPTH fuel = some p) :
    p.head? = some start ∧ p.getLast? = some endN ∧ chainOk graph p ∧
      p.length - 1 ≤ MAX_SEARCH_DEPTH :=
  spaceTimeAStar_sound resv robotsL graph start endN t0 rid MAX_SEARCH_DEPTH fuel p h

/-- Witness for C4_plannerSound: a concrete search from 81 to 72 returns
the path 81-71-72, which indeed starts at 81, ends at 72, walks only graph
edges and takes 2 steps. -/
theorem C4_plannerSound_witness :
    spaceTimeAStar [] [] GRAPH "81" "72" 7 "r9" MAX_SEARCH_DEPTH FUEL =
      some ["81", "71", "72"] ∧
    ((["81", "71", "72"] : List Node).head? = some "81" ∧
      (["81", "71", "72"] : List Node).getLast? = some "72" ∧
      chainOk GRAPH ["81", "71", "72"] ∧
      (["81", "71", "72"] : List Node).length - 1 ≤ MAX_SEARCH_DEPTH) :=
  ⟨by decide, C4_plannerSound [] [] GRAPH "81" "72" 7 "r9" FUEL ["81", "71", "72"] (by decide)⟩

theorem pathToInstrListAux_length (p : List Node) :
    ∀ cur : String, (pathToInstrListAux cur p).1.length = p.length - 1 := by
  induction p with
  | nil => intro cur; rfl
  | cons a t ih =>
    intro cur
    cases t with
    | nil => rfl
    | cons b rest =>
      simp only [pathToInstrListAux]
      cases directionBetween a b with
      | none =>
        simp only [List.length_cons, ih]
        rfl
      | some target =>
        simp only [List.length_cons, ih]
        rfl

/-- Conclusion of claim C2, for an allocator assignment with planner legs
path1 and path2: the full command list is the translation of leg 1
followed by the whole translation of leg 2, its length is exactly
len(fullPath) - 1, and the published plan pairs each path cell with its
command and is terminated by the Done sentinel, with exactly
len(fullPath) entries. -/
def C2Concl (s : ServerState) (tNow : Nat) (jid : JId) (job : Job) (rid : RId)
    (path1 path2 : List Node) : Prop :=
  (pathToInstrList path1 ((alookup s.robots rid).getD default).dir).1.length +
      (pathToInstrList path2
        (pathToInstrList path1 ((alookup s.robots rid).getD default).dir).2).1.length =
    (path1 ++ path2.tail).length - 1 ∧
  alookup (allocProcessJob s tNow jid).jobs jid = some
    { job with
      assigned_robot := some rid, status := "assigned", path := path1 ++ path2.tail,
      plan := (path1 ++ path2.tail).dropLast.zip
          ((pathToInstrList path1 ((alookup s.robots rid).getD default).dir).1 ++
            (pathToInstrList path2
              (pathToInstrList path1 ((alookup s.robots rid).getD default).dir).2).1) ++
        [((path1 ++ path2.tail).getLastD "", 'D')],
      plan_str := planToStr
        ((path1 ++ path2.tail).dropLast.zip
          ((pathToInstrList path1 ((alookup s.robots rid).getD default).dir).1 ++
            (pathToInstrList path2
              (pathToInstrList path1 ((alookup s.robots rid).getD default).dir).2).1) ++
        [((path1 ++ path2.tail).getLastD "", 'D')]),
      progress_index := none } ∧
  ((path1 ++ path2.tail).dropLast.zip
      ((pathToInstrList path1 ((alookup s.robots rid).getD default).dir).1 ++
        (pathToInstrList path2
          (pathToInstrList path1 ((alookup s.robots rid).getD default).dir).2).1) ++
    [((path1 ++ path2.tail).getLastD "", 'D')]).length = (path1 ++ path2.tail).length

/-- Claim C2: for every job the allocator assigns (both planner legs
succeed), the command list is instr1 ++ instr2 — the whole translation of
leg 2 appended — with exactly len(fullPath) - 1 motion commands, and the
published plan pairs fullPath[i] with command i and ends with the Done
sentinel, giving exactly len(fullPath) entries. -/
theorem C2_allocatorPlanShape (s : ServerState) (tNow : Nat) (jid : JId) (job : Job)
    (rid : RId) (path1 path2 : List Node)
    (hj : alookup s.jobs jid = some job)
    (hp : allocPickRobot s.robots job.pickup = some rid)
    (h1 : spaceTimeAStar s.reservations s.robots GRAPH
      ((alookup s.robots rid).getD default).node job.pickup tNow rid
      MAX_SEARCH_DEPTH FUEL = some path1)
    (h2 : spaceTimeAStar s.reservations s.robots GRAPH job.pickup job.drop
      (tNow + path1.length - 1) rid MAX_SEARCH_DEPTH FUEL = some path2) :
    C2Concl s tNow jid job rid path1 path2 := by
  have hne1 : path1 ≠ [] := by
    have := (spaceTimeAStar_sound _ _ _ _ _ _ _ _ _ _ h1).1
    intro hx
    rw [hx] at this
    cases this
  have hne2 : path2 ≠ [] := by
    have := (spaceTimeAStar_sound _ _ _ _ _ _ _ _ _ _ h2).1
    intro hx
    rw [hx] at this
    cases this
  have hl1 : 1 ≤ path1.length := List.length_pos.mpr hne1
  have hl2 : 1 ≤ path2.length := List.length_pos.mpr hne2
  have hlenInstr :
      (pathToInstrList path1 ((alookup s.robots rid).getD default).dir).1.length +
        (pathToInstrList path2
          (pathToInstrList path1 ((alookup s.robots rid).getD default).dir).2).1.length =
      (path1 ++ path2.tail).length - 1 := by
    rw [pathToInstrList, pathToInstrList, pathToInstrListAux_length, pathToInstrListAux_length,
      List.length_append, List.length_tail]
    omega
  refine ⟨hlenInstr, ?_, ?_⟩
  · simp only [allocProcessJob, hj, hp, h1, h2]
    have hcond : ((path1 ++ path2.tail).length - 1 ==
        ((pathToInstrList path1 ((alookup s.robots rid).getD default).dir).1 ++
          (pathToInstrList path2
            (pathToInstrList path1 ((alookup s.robots rid).getD default).dir).2).1).length) = true := by
      rw [beq_iff_eq,
        List.length_append (pathToInstrList path1 ((alookup s.robots rid).getD default).dir).1
          (pathToInstrList path2
            (pathToInstrList path1 ((alookup s.robots rid).getD default).dir).2).1]
      exact hlenInstr.symm
    rw [if_pos hcond]
    exact alookup_aupdate_self _ _ _
  · simp only [List.length_append, List.length_zip, List.length_dropLast, List.length_tail,
      List.length_singleton, pathToInstrList, pathToInstrListAux_length]
    omega

/-- The queued job of the C2 witness. -/
def job2w : Job :=
  { pickup := "71", drop := "72", status := "queued", assigned_robot := none,
    path := [], plan := [], plan_str := "", progress_index := none,
    progress_trace := [], reports := [], submitted_ts := 0 }

/-- The C2 witness state: one idle robot at 81 facing south, one queued job
71 to 72. -/
def s2w : ServerState :=
  { now := 0, robots := [("r1", mkIdleRobot "81")], jobs := [("j1", job2w)],
    job_queue := ["j1"], reservations := [] }

/-- Witness for C2_allocatorPlanShape: both legs plan concretely (81-71 and
71-72) and the published plan is [(81,U), (71,R), (72,D)]. -/
theorem C2_allocatorPlanShape_witness :
    (alookup s2w.jobs "j1" = some job2w ∧
      allocPickRobot s2w.robots job2w.pickup = some "r1" ∧
      spaceTimeAStar s2w.reservations s2w.robots GRAPH
        ((alookup s2w.robots "r1").getD default).node job2w.pickup 50 "r1"
        MAX_SEARCH_DEPTH FUEL = some ["81", "71"] ∧
      spaceTimeAStar s2w.reservations s2w.robots GRAPH job2w.pickup job2w.drop
        (50 + (["81", "71"] : List Node).length - 1) "r1"
        MAX_SEARCH_DEPTH FUEL = some ["71", "72"]) ∧
    C2Concl s2w 50 "j1" job2w "r1" ["81", "71"] ["71", "72"] :=
  ⟨⟨by decide, by decide, by decide, by decide⟩,
    C2_allocatorPlanShape s2w 50 "j1" job2w "r1" ["81", "71"] ["71", "72"]
      (by decide) (by decide) (by decide) (by decide)⟩

instance : IsTotal (Nat × Node) parkLe := by
  constructor
  intro a b
  unfold parkLe
  rcases Nat.lt_trichotomy a.1 b.1 with h | h | h
  · exact Or.inl (Or.inl h)
  · rcases le_total a.2 b.2 with h2 | h2
    · exact Or.inl (Or.inr ⟨h, h2⟩)
    · exact Or.inr (Or.inr ⟨h.symm, h2⟩)
  · exact Or.inr (Or.inl h)

instance : IsTrans (Nat × Node) parkLe := by
  constructor
  intro a b c hab hbc
  unfold parkLe at *
  rcases hab with h1 | ⟨h1, h1'⟩ <;> rcases hbc with h2 | ⟨h2, h2'⟩
  · exact Or.inl (lt_trans h1 h2)
  · exact Or.inl (h2 ▸ h1)
  · exact Or.inl (h1 ▸ h2)
  · exact Or.inr ⟨h1.trans h2, h1'.trans h2'⟩

/-- find_nearest_parking returns an unoccupied parking cell of minimal
Manhattan distance to the given cell (a cell is occupied when some idle
robot stands on it). -/
theorem findNearestParking_spec (robotsL : List (RId × Robot)) (node : Node) (p : Node)
    (h : findNearestParking robotsL node = some p) :
    p ∈ PARKING_NODES ∧
    (robotsL.any (fun r => r.2.node == p && r.2.status == "idle")) = false ∧
    ∀ q ∈ PARKING_NODES,
      (robotsL.any (fun r => r.2.node == q && r.2.status == "idle")) = false →
      getManhattanDist node p ≤ getManhattanDist node q := by
  unfold findNearestParking at h
  set candidates := (PARKING_NODES.filter
      (fun p => !(robotsL.any (fun r => r.2.node == p && r.2.status == "idle")))).map
    (fun p => (getManhattanDist node p, p)) with hcand
  dsimp only at h
  cases hs : List.insertionSort parkLe candidates with
  | nil =>
    rw [hs] at h
    cases h
  | cons c cs =>
    rw [hs] at h
    have hp : p = c.2 := (Option.some.inj h).symm
    have hcmem : c ∈ candidates := by
      have : c ∈ List.insertionSort parkLe candidates := by
        rw [hs]
        exact List.mem_cons_self _ _
      exact (List.perm_insertionSort parkLe candidates).subset this
    rw [hcand] at hcmem
    obtain ⟨q0, hq0, hq0c⟩ := List.mem_map.mp hcmem
    have hq0' := List.mem_filter.mp hq0
    have hc1 : c.1 = getManhattanDist node c.2 := by
      rw [← hq0c]
    refine ⟨?_, ?_, ?_⟩
    · rw [hp, ← hq0c]
      exact hq0'.1
    · rw [hp, ← hq0c]
      simpa using hq0'.2
    · intro q hq hunocc
      have hqc : (getManhattanDist node q, q) ∈ candidates := by
        rw [hcand]
        refine List.mem_map_of_mem _ ?_
        exact List.mem_filter.mpr ⟨hq, by simp [hunocc]⟩
      have hqs : (getManhattanDist node q, q) ∈ List.insertionSort parkLe candidates :=
        (List.perm_insertionSort parkLe candidates).symm.subset hqc
      rw [hs] at hqs
      rcases List.mem_cons.mp hqs with hq' | hq'
      · rw [hp, ← hq']
      · have hsorted : List.Sorted parkLe (c :: cs) := by
          rw [← hs]
          exact List.sorted_insertionSort parkLe candidates
        have hle := (List.sorted_cons.mp hsorted).1 _ hq'
        rcases hle with hlt | ⟨heq, _⟩
        · rw [hp, ← hc1]
          exact le_of_lt hlt
        · rw [hp, ← hc1, heq]

theorem locationCore_facts (s : ServerState) (rid node : String) (dirOpt : Option String)
    (stepIdx : Option Int) (tNow : Nat) (rob : Robot)
    (hr : alookup s.robots rid = some rob) :
    (∃ rob2, alookup (locationCore s rid node dirOpt stepIdx tNow).robots rid = some rob2) ∧
    (locationCore s rid node dirOpt stepIdx tNow).jobs.map (·.1) = s.jobs.map (·.1) ∧
    (locationCore s rid node dirOpt stepIdx tNow).job_queue = s.job_queue := by
  unfold locationCore
  rw [hr]
  dsimp only
  split
  · split
    · next job hjob =>
      refine ⟨⟨_, alookup_aupdate_self _ _ _⟩, ?_, rfl⟩
      exact aupdate_keys_of_mem _ _ _ _ hjob
    · exact ⟨⟨_, alookup_aupdate_self _ _ _⟩, rfl, rfl⟩
  · exact ⟨⟨_, alookup_aupdate_self _ _ _⟩, rfl, rfl⟩

theorem jobDoneCore_facts (sx : ServerState) (rid : RId) (rob2 : Robot)
    (hr2 : alookup sx.robots rid = some rob2) :
    alookup (jobDoneCore sx rid).robots rid =
      some { rob2 with status := "idle", current_path := [], current_job := none } ∧
    (jobDoneCore sx rid).jobs.map (·.1) = sx.jobs.map (·.1) ∧
    (jobDoneCore sx rid).reservations = releaseOwner sx.reservations rid ∧
    (jobDoneCore sx rid).job_queue = sx.job_queue := by
  unfold jobDoneCore
  rw [hr2]
  dsimp only
  split
  · next jid =>
    split
    · next job hjob =>
      exact ⟨alookup_aupdate_self _ _ _, aupdate_keys_of_mem _ _ _ _ hjob, rfl, rfl⟩
    · exact ⟨alookup_aupdate_self _ _ _, rfl, rfl, rfl⟩
  · exact ⟨alookup_aupdate_self _ _ _, rfl, rfl, rfl⟩

/-- Conclusion of claim C7, for an update_location call reporting job_done
at the given cell: on a parking cell no auto-park job is created and the
robot ends idle; on a non-parking cell with a nearest free parking cell, a
parking job from that cell to the nearest unoccupied parking cell is
created, and depending on whether a path exists the robot becomes busy
with the reserved park plan or the job is marked failed with the robot
left idle. -/
def C7Concl (s : ServerState) (rid node parkJid : String) (dirOpt : Option String)
    (stepIdx : Option Int) (tNow : Nat) : Prop :=
  let s' := updateLocation s rid node dirOpt stepIdx (some "job_done") parkJid tNow
  let s2 := jobDoneCore (locationCore s rid node dirOpt stepIdx tNow) rid
  (PARKING_NODES.contains node = true →
    s' = s2 ∧
    (alookup s'.robots rid).map (·.status) = some "idle" ∧
    s'.jobs.map (·.1) = s.jobs.map (·.1)) ∧
  (PARKING_NODES.contains node = false →
    s' = autoPark s2 rid node parkJid tNow ∧
    ∀ pSpot : Node, findNearestParking s2.robots node = some pSpot →
      (pSpot ∈ PARKING_NODES ∧
        (s2.robots.any (fun r => r.2.node == pSpot && r.2.status == "idle")) = false ∧
        ∀ q ∈ PARKING_NODES,
          (s2.robots.any (fun r => r.2.node == q && r.2.status == "idle")) = false →
          getManhattanDist node pSpot ≤ getManhattanDist node q) ∧
      (∀ pk : List Node,
        spaceTimeAStar s2.reservations s2.robots GRAPH node pSpot tNow rid
          MAX_SEARCH_DEPTH FUEL = some pk →
        (alookup s'.robots rid).map (·.status) = some "busy" ∧
        (alookup s'.robots rid).map (·.current_job) = some (some parkJid) ∧
        (alookup s'.robots rid).map (·.current_path) = some pk ∧
        alookup s'.jobs parkJid = some
          { createSystemJob node pSpot (some rid) tNow with
            plan := buildPlanArray pk
              (pathToInstrList pk ((alookup s2.robots rid).getD default).dir).1,
            plan_str := planToStr (buildPlanArray pk
              (pathToInstrList pk ((alookup s2.robots rid).getD default).dir).1),
            path := pk } ∧
        s'.reservations = reservePathTrajectory s2.reservations pk tNow rid) ∧
      (spaceTimeAStar s2.reservations s2.robots GRAPH node pSpot tNow rid
          MAX_SEARCH_DEPTH FUEL = none →
        alookup s'.jobs parkJid = some
          { createSystemJob node pSpot (some rid) tNow with status := "failed" } ∧
        (alookup s'.robots rid).map (·.status) = some "idle"))

/-- Claim C7: behaviour of update_location with status job_done — no
auto-park on a parking cell; otherwise a parking job to the nearest
unoccupied parking cell is synthesized, reserved and assigned when a path
exists, and marked failed (robot idle) when it does not. -/
theorem C7_jobDoneAutoPark (s : ServerState) (rid node parkJid : String)
    (dirOpt : Option String) (stepIdx : Option Int) (tNow : Nat) (rob : Robot)
    (hr : alookup s.robots rid = some rob) :
    C7Concl s rid node parkJid dirOpt stepIdx tNow := by
  unfold C7Concl
  obtain ⟨⟨rob2, hrob2⟩, hkeys, hq⟩ :=
    locationCore_facts s rid node dirOpt stepIdx tNow rob hr
  obtain ⟨hrob3, hkeys3, hres3, hq3⟩ :=
    jobDoneCore_facts (locationCore s rid node dirOpt stepIdx tNow) rid rob2 hrob2
  have hupd : updateLocation s rid node dirOpt stepIdx (some "job_done") parkJid tNow =
      (if PARKING_NODES.contains node
        then jobDoneCore (locationCore s rid node dirOpt stepIdx tNow) rid
        else autoPark (jobDoneCore (locationCore s rid node dirOpt stepIdx tNow) rid)
          rid node parkJid tNow) := by
    unfold updateLocation
    rw [hr]
    rw [if_pos (by decide)]
  constructor
  · intro hpark
    rw [hupd, if_pos hpark]
    refine ⟨rfl, ?_, ?_⟩
    · rw [hrob3]
      rfl
    · rw [hkeys3, hkeys]
  · intro hpark
    rw [hupd, if_neg (by rw [hpark]; simp)]
    refine ⟨rfl, ?_⟩
    intro pSpot hps
    obtain ⟨hp1, hp2, hp3⟩ :=
      findNearestParking_spec (jobDoneCore (locationCore s rid node dirOpt stepIdx tNow)
        rid).robots node pSpot hps
    refine ⟨⟨hp1, hp2, hp3⟩, ?_, ?_⟩
    · intro pk hpk
      unfold autoPark
      rw [hps]
      dsimp only
      rw [hpk]
      dsimp only
      refine ⟨?_, ?_, ?_, ?_, rfl⟩
      · rw [alookup_aupdate_self]
        rfl
      · rw [alookup_aupdate_self]
        rfl
      · rw [alookup_aupdate_self]
        rfl
      · rw [alookup_aupdate_self]
    · intro hpk
      unfold autoPark
      rw [hps]
      dsimp only
      rw [hpk]
      dsimp only
      refine ⟨alookup_aupdate_self _ _ _, ?_⟩
      rw [hrob3]
      rfl

/-- The busy robot of the C7/C8 witness states: at cell 71 (not a parking
cell) with current job j1. -/
def rob7 : Robot :=
  { status := "busy", node := "71", dir := "s", color := 3,
    current_path := ["71"], current_job := some "j1", last_seen := 0,
    reservedPath := ["71"], reservedT0 := 9 }

/-- The assigned job completed in the C7 witness. -/
def job7 : Job :=
  { pickup := "81", drop := "71", status := "assigned", assigned_robot := some "r1",
    path := ["81", "71"], plan := [], plan_str := "", progress_index := none,
    progress_trace := [], reports := [], submitted_ts := 0 }

/-- The C7 witness state. -/
def s7w : ServerState :=
  { now := 9, robots := [("r1", rob7)], jobs := [("j1", job7)], job_queue := [],
    reservations := [(("71", 9), "r1")] }

/-- Witness for C7_jobDoneAutoPark at the concrete state s7w. -/
theorem C7_jobDoneAutoPark_witness :
    alookup s7w.robots "r1" = some rob7 ∧ C7Concl s7w "r1" "71" "jp" none none 9 :=
  ⟨by decide, C7_jobDoneAutoPark s7w "r1" "71" "jp" none none 9 rob7 (by decide)⟩

/-- Claim C8 as stated: after a robot's job was completed through
update_location with status job_done, a subsequent report_execution for
the same robot and job changes nothing — the job table, robot table, queue
and reservation table are identical before and after the second report. -/
def DuplicateCompletionIdempotent : Prop :=
  ∀ (s : ServerState) (rid node : String) (jid : JId) (dirOpt : Option String)
    (stepIdx : Option Int) (parkJid : String) (tNow tNow2 : Nat) (rob : Robot),
    alookup s.robots rid = some rob → rob.current_job = some jid →
    (reportExecution (updateLocation s rid node dirOpt stepIdx (some "job_done") parkJid tNow)
        rid (some jid) none tNow2).jobs =
      (updateLocation s rid node dirOpt stepIdx (some "job_done") parkJid tNow).jobs ∧
    (reportExecution (updateLocation s rid node dirOpt stepIdx (some "job_done") parkJid tNow)
        rid (some jid) none tNow2).robots =
      (updateLocation s rid node dirOpt stepIdx (some "job_done") parkJid tNow).robots ∧
    (reportExecution (updateLocation s rid node dirOpt stepIdx (some "job_done") parkJid tNow)
        rid (some jid) none tNow2).job_queue =
      (updateLocation s rid node dirOpt stepIdx (some "job_done") parkJid tNow).job_queue ∧
    (reportExecution (updateLocation s rid node dirOpt stepIdx (some "job_done") parkJid tNow)
        rid (some jid) none tNow2).reservations =
      (updateLocation s rid node dirOpt stepIdx (some "job_done") parkJid tNow).reservations

/-- The busy robot of the C8 counterexample, on parking cell 81. -/
def rob8 : Robot :=
  { status := "busy", node := "81", dir := "s", color := 3,
    current_path := ["81"], current_job := some "j1", last_seen := 0,
    reservedPath := ["81"], reservedT0 := 9 }

/-- The assigned job of the C8 counterexample. -/
def job8 : Job :=
  { pickup := "71", drop := "81", status := "assigned", assigned_robot := some "r1",
    path := ["71", "81"], plan := [], plan_str := "", progress_index := none,
    progress_trace := [], reports := [], submitted_ts := 0 }

/-- The C8 counterexample state. -/
def s8w : ServerState :=
  { now := 9, robots := [("r1", rob8)], jobs := [("j1", job8)], job_queue := [],
    reservations := [(("81", 9), "r1")] }

/-- Claim C8, counterexample: duplicate completion is not idempotent.  In
s8w the robot completes job j1 on parking cell 81 via update_location
(status job_done); the subsequent report_execution for the same robot and
job appends a fresh report record to the job's reports list, so the job
table differs. -/
theorem C8_duplicateCompletion_counterexample : ¬ DuplicateCompletionIdempotent := by
  intro h
  have hc := h s8w "r1" "81" "j1" none none "jp" 9 10 rob8 (by decide) (by decide)
  exact absurd hc.1 (by decide)

/-- Claim C8, amended: if the first completion left the robot idle with no
current job and no reservations and the job in status done (as a job_done
report on a parking cell does), then a second report_execution (without a
location payload) leaves the robot table, the queue and the reservation
table unchanged, and changes the job table only by appending one report
record to the job's reports list (its status stays done). -/
theorem C8_secondReportAppendsReportOnly (s : ServerState) (rid : RId) (jid : JId)
    (tNow : Nat) (rob : Robot) (job : Job)
    (hr : alookup s.robots rid = some rob)
    (hidle : rob.status = "idle") (hpath : rob.current_path = [])
    (hcur : rob.current_job = none)
    (hj : alookup s.jobs jid = some job) (hdone : job.status = "done")
    (hres : ∀ e ∈ s.reservations, e.2 ≠ rid) :
    (reportExecution s rid (some jid) none tNow).robots = s.robots ∧
    (reportExecution s rid (some jid) none tNow).job_queue = s.job_queue ∧
    (reportExecution s rid (some jid) none tNow).reservations = s.reservations ∧
    (reportExecution s rid (some jid) none tNow).jobs =
      aupdate s.jobs jid
        { job with reports := job.reports ++
            [{ robot := rid, nodes_with_dir := none, ts := tNow }] } := by
  have hrob2 : ({ rob with status := "idle", current_path := [], current_job := none }
      : Robot) = rob := by
    rw [← hidle, ← hpath, ← hcur]
  have hjob' : ({ job with
      reports := job.reports ++ [{ robot := rid, nodes_with_dir := none, ts := tNow }],
      status := "done" } : Job) =
      { job with reports := job.reports ++
          [{ robot := rid, nodes_with_dir := none, ts := tNow }] } := by
    rw [← hdone]
  unfold reportExecution
  rw [hr]
  dsimp only
  rw [hj]
  dsimp only
  rw [hrob2, hjob']
  have hupd1 : aupdate s.robots rid rob = s.robots := aupdate_self_eq _ _ _ hr
  rw [hupd1]
  refine ⟨?_, rfl, ?_, rfl⟩
  · rw [aupdate_self_eq _ _ _ hr]
  · unfold releaseOwner
    refine List.filter_eq_self.mpr ?_
    intro e he
    simpa using hres e he

/-- The done job of the C8 witness. -/
def job8d : Job :=
  { pickup := "71", drop := "81", status := "done", assigned_robot := some "r1",
    path := ["71", "81"], plan := [], plan_str := "", progress_index := none,
    progress_trace := [], reports := [{ robot := "r1", nodes_with_dir := none, ts := 9 }],
    submitted_ts := 0 }

/-- The C8 witness state: robot idle on its parking cell, job done, no
reservations — the state a job_done report on a parking cell leaves. -/
def s8i : ServerState :=
  { now := 9, robots := [("r1", mkIdleRobot "81")], jobs := [("j1", job8d)],
    job_queue := [], reservations := [] }

/-- Witness for C8_secondReportAppendsReportOnly at the state s8i. -/
theorem C8_secondReportAppendsReportOnly_witness :
    (alookup s8i.robots "r1" = some (mkIdleRobot "81") ∧
      (mkIdleRobot "81").status = "idle" ∧ (mkIdleRobot "81").current_path = [] ∧
      (mkIdleRobot "81").current_job = none ∧
      alookup s8i.jobs "j1" = some job8d ∧ job8d.status = "done" ∧
      ∀ e ∈ s8i.reservations, e.2 ≠ "r1") ∧
    ((reportExecution s8i "r1" (some "j1") none 10).robots = s8i.robots ∧
      (reportExecution s8i "r1" (some "j1") none 10).job_queue = s8i.job_queue ∧
      (reportExecution s8i "r1" (some "j1") none 10).reservations = s8i.reservations ∧
      (reportExecution s8i "r1" (some "j1") none 10).jobs =
        aupdate s8i.jobs "j1"
          { job8d with reports := job8d.reports ++
              [{ robot := "r1", nodes_with_dir := none, ts := 10 }] }) :=
  ⟨⟨by decide, by decide, by decide, by decide, by decide, by decide, by decide⟩,
    C8_secondReportAppendsReportOnly s8i "r1" "j1" 10 (mkIdleRobot "81") job8d
      (by decide) (by decide) (by decide) (by decide) (by decide) (by decide) (by decide)⟩
